import Mathlib

/-!
A shallow embedding of the cost-tracker pipeline in `streamlit_app.py`:
the record normalizer `process_data` (both input shapes, with its
per-record try/except error handling) and the aggregation performed by
`plot_data` (summary metrics, per-model grouping with top-10
truncation, per-user grouping with a trailing Total row), together
with proofs of the specification's claims about them.
-/

namespace CostTracker

/-- A Python value as it occurs in a parsed JSON usage record: a
string, an integer, or a float.  Floats are modelled as rational
numbers; floating-point rounding, `inf` and `nan` are outside the
model. -/
inductive PyVal where
  | vStr : String → PyVal
  | vInt : Int → PyVal
  | vFloat : ℚ → PyVal
deriving DecidableEq

/-- A raw input record: a Python dict modelled as an association list
(first binding wins on lookup, as dict keys are unique). -/
abbrev Rec := List (String × PyVal)

/-- Numeric value of a decimal digit character. -/
def digitVal (c : Char) : Nat := c.toNat - 48

/-- Value of a string of decimal digits, most significant first. -/
def natOfDigits (ds : List Char) : Nat :=
  ds.foldl (fun acc c => acc * 10 + digitVal c) 0

/-- Consume exactly four decimal digits (the `%Y` directive of
`strptime`, whose pattern is four digit characters). -/
def take4Digits : List Char → Option (Nat × List Char)
  | a :: b :: c :: d :: rest =>
    if a.isDigit ∧ b.isDigit ∧ c.isDigit ∧ d.isDigit then
      some (digitVal a * 1000 + digitVal b * 100 + digitVal c * 10 + digitVal d, rest)
    else none
  | _ => none

/-- Consume one or two decimal digits whose value lies in `[lo, hi]`,
preferring the two-digit reading, exactly as the alternation-based
patterns of the `%m`, `%d`, `%H`, `%M`, `%S` directives of `strptime`
do (e.g. `%m` matches two digits valued 1..12, else one digit valued
1..9; `%H` matches two digits valued 0..23, else any one digit). -/
def take2or1 (lo hi : Nat) : List Char → Option (Nat × List Char)
  | [] => none
  | a :: rest =>
    if a.isDigit then
      match rest with
      | b :: rest2 =>
        if b.isDigit ∧ lo ≤ digitVal a * 10 + digitVal b ∧ digitVal a * 10 + digitVal b ≤ hi then
          some (digitVal a * 10 + digitVal b, rest2)
        else if lo ≤ digitVal a ∧ digitVal a ≤ hi then
          some (digitVal a, b :: rest2)
        else none
      | [] =>
        if lo ≤ digitVal a ∧ digitVal a ≤ hi then some (digitVal a, []) else none
    else none

/-- Consume one expected literal character. -/
def expectChar (c : Char) : List Char → Option (List Char)
  | a :: rest => if a = c then some rest else none
  | [] => none

/-- Consume the literal `T` separator.  CPython compiles `strptime`
patterns with `IGNORECASE`, so a lowercase `t` is accepted too. -/
def expectT : List Char → Option (List Char)
  | a :: rest => if a = 'T' ∨ a = 't' then some rest else none
  | [] => none

/-- Leap-year test of the Gregorian calendar. -/
def isLeap (y : Nat) : Bool :=
  (y % 4 == 0 && y % 100 != 0) || (y % 400 == 0)

/-- Number of days in a month, as validated by the `datetime`
constructor. -/
def daysInMonth (y m : Nat) : Nat :=
  if m == 2 then (if isLeap y then 29 else 28)
  else if m == 4 || m == 6 || m == 9 || m == 11 then 30
  else 31

/-- A parsed timestamp (the fields of the `datetime` produced by
`strptime`). -/
structure Timestamp where
  year : Nat
  month : Nat
  day : Nat
  hour : Nat
  minute : Nat
  second : Nat
  micro : Nat
deriving DecidableEq

/-- `datetime.datetime.strptime(s, "%Y-%m-%dT%H:%M:%S.%f")`: four-digit
year, one/two-digit month, day, hour, minute and second with the
ranges of the corresponding `strptime` patterns, a fractional part of
one to six digits right-padded to microseconds, the whole string
consumed, and the `datetime` constructor's validation of the year
(≥ 1) and of the day against the month length.  Returns `none` where
Python raises `ValueError`. -/
def strptime_iso (s : String) : Option Timestamp := do
  let (y, r1) ← take4Digits s.toList
  let r2 ← expectChar '-' r1
  let (mo, r3) ← take2or1 1 12 r2
  let r4 ← expectChar '-' r3
  let (d, r5) ← take2or1 1 31 r4
  let r6 ← expectT r5
  let (h, r7) ← take2or1 0 23 r6
  let r8 ← expectChar ':' r7
  let (mi, r9) ← take2or1 0 59 r8
  let r10 ← expectChar ':' r9
  let (sec, r11) ← take2or1 0 59 r10
  let r12 ← expectChar '.' r11
  let ds := r12.takeWhile (·.isDigit)
  let rest := r12.dropWhile (·.isDigit)
  if 1 ≤ ds.length ∧ ds.length ≤ 6 ∧ rest = [] ∧ 1 ≤ y ∧ d ≤ daysInMonth y mo then
    some ⟨y, mo, d, h, mi, sec, natOfDigits ds * 10 ^ (6 - ds.length)⟩
  else none

/-- Zero-pad a number to two digits (the `%m` directive of
`strftime`). -/
def pad2 (n : Nat) : String :=
  if n < 10 then "0" ++ toString n else toString n

/-- `timestamp.strftime("%Y-%m")`: the month key of a record.  On the
reference platform `%Y` prints the year unpadded and `%m` the month
zero-padded to two digits. -/
def monthKey (t : Timestamp) : String :=
  toString t.year ++ "-" ++ pad2 t.month

/-- Strip leading and trailing whitespace, as `float(str)` does. -/
def trimWs (cs : List Char) : List Char :=
  ((cs.dropWhile (·.isWhitespace)).reverse.dropWhile (·.isWhitespace)).reverse

/-- Consume an optional sign; returns whether the value is negated. -/
def parseSign : List Char → Bool × List Char
  | '+' :: r => (false, r)
  | '-' :: r => (true, r)
  | r => (false, r)

/-- Consume an unsigned decimal mantissa: digits with an optional
fractional part, or a fractional part alone (`"1"`, `"1."`, `".5"`,
`"1.5"`). -/
def parseUnsigned (cs : List Char) : Option (ℚ × List Char) :=
  let ip := cs.takeWhile (·.isDigit)
  let r1 := cs.dropWhile (·.isDigit)
  match r1 with
  | '.' :: r2 =>
    let fp := r2.takeWhile (·.isDigit)
    let r3 := r2.dropWhile (·.isDigit)
    if ip.length = 0 ∧ fp.length = 0 then none
    else some ((natOfDigits ip : ℚ) + (natOfDigits fp : ℚ) / ((10 : ℚ) ^ fp.length), r3)
  | _ =>
    if ip.length = 0 then none else some ((natOfDigits ip : ℚ), r1)

/-- Consume an optional exponent part (`e`/`E`, optional sign,
digits); yields the exponent as an integer. -/
def parseExp : List Char → Option (Int × List Char)
  | [] => some (0, [])
  | c :: r =>
    if c = 'e' ∨ c = 'E' then
      let (neg, r2) := parseSign r
      let ds := r2.takeWhile (·.isDigit)
      let r3 := r2.dropWhile (·.isDigit)
      if ds.length = 0 then none
      else some ((if neg then -(natOfDigits ds : Int) else (natOfDigits ds : Int)), r3)
    else some (0, c :: r)

/-- `float(s)` on a string: optional surrounding whitespace, optional
sign, decimal mantissa, optional exponent, the whole string consumed.
Returns `none` where Python raises `ValueError`.  (`inf`/`nan` and
underscore digit separators are not representable in the rational
model and are omitted.) -/
def pyFloat (s : String) : Option ℚ := do
  let cs := trimWs s.toList
  let (neg, r1) := parseSign cs
  let (m, r2) ← parseUnsigned r1
  let (e, r3) ← parseExp r2
  if r3 = [] then
    some ((if neg then -m else m) * (10 : ℚ) ^ e)
  else none

/-- Python `+` on the modelled values: numeric addition for numbers
(int/float promotion as in Python), concatenation for two strings, and
`none` (a `TypeError`) for any other combination. -/
def pyAdd : PyVal → PyVal → Option PyVal
  | .vInt a, .vInt b => some (.vInt (a + b))
  | .vInt a, .vFloat b => some (.vFloat ((a : ℚ) + b))
  | .vFloat a, .vInt b => some (.vFloat (a + (b : ℚ)))
  | .vFloat a, .vFloat b => some (.vFloat (a + b))
  | .vStr a, .vStr b => some (.vStr (a ++ b))
  | _, _ => none

/-- Lines 71-72 / 111-112: `if isinstance(cost, str): cost = float(cost)`.
A string cost is parsed (`none` on `ValueError`); any other value
passes through unchanged. -/
def coerceCost : PyVal → Option PyVal
  | .vStr s => (pyFloat s).map .vFloat
  | v => some v

/-- One `st.error` diagnostic of `process_data`, identified by the
`except` handler that emits it. -/
inductive Diagnostic where
  | missingKey : String → Diagnostic
  | invalidValue : Diagnostic
  | genericError : Diagnostic
deriving DecidableEq

/-- One row of the processed DataFrame, as appended by `process_data`.
Field values other than `month` and (in the keyed shape) `user` are
whatever Python values the record held. -/
structure ProcessedRecord where
  month : String
  model : PyVal
  total_cost : PyVal
  user : PyVal
  total_tokens : PyVal
  image_count : PyVal
  type : PyVal
deriving DecidableEq

deriving instance DecidableEq for Except

/-- `record.get(k, d)`. -/
def getDefault (r : Rec) (k : String) (d : PyVal) : PyVal :=
  (r.lookup k).getD d

/-- The body of the per-record `try` block of the keyed-by-user branch
of `process_data` (lines 61-97): parse the timestamp, derive the month,
read `model` and `total_cost`, coerce a string cost, add the token
counts, default `image_count` and `type`, and take `user` from the
enclosing dict key.  The `Except.error` cases are the `except`
handlers, in the order the exceptions arise: `KeyError` for a missing
key, `ValueError` for an unparseable timestamp or cost, and the
catch-all handler for a `TypeError` (non-string timestamp value, or an
incompatible `+`). -/
def processRecordKeyed (user_email : String) (record : Rec) :
    Except Diagnostic ProcessedRecord :=
  match record.lookup "timestamp" with
  | none => .error (.missingKey "timestamp")
  | some (.vStr ts) =>
    match strptime_iso ts with
    | none => .error .invalidValue
    | some t =>
      match record.lookup "model" with
      | none => .error (.missingKey "model")
      | some model =>
        match record.lookup "total_cost" with
        | none => .error (.missingKey "total_cost")
        | some cost0 =>
          match coerceCost cost0 with
          | none => .error .invalidValue
          | some cost =>
            match record.lookup "input_tokens" with
            | none => .error (.missingKey "input_tokens")
            | some it =>
              match record.lookup "output_tokens" with
              | none => .error (.missingKey "output_tokens")
              | some ot =>
                match pyAdd it ot with
                | none => .error .genericError
                | some tok =>
                  .ok { month := monthKey t, model := model, total_cost := cost,
                        user := .vStr user_email, total_tokens := tok,
                        image_count := getDefault record "image_count" (.vInt 0),
                        type := getDefault record "type" (.vStr "chat_completion") }
  | some _ => .error .genericError

/-- The body of the per-record `try` block of the flat-list branch of
`process_data` (lines 100-137): identical to the keyed branch except
that `user` is read from the record itself (line 108, after
`total_cost` is read and before the cost coercion). -/
def processRecordFlat (record : Rec) : Except Diagnostic ProcessedRecord :=
  match record.lookup "timestamp" with
  | none => .error (.missingKey "timestamp")
  | some (.vStr ts) =>
    match strptime_iso ts with
    | none => .error .invalidValue
    | some t =>
      match record.lookup "model" with
      | none => .error (.missingKey "model")
      | some model =>
        match record.lookup "total_cost" with
        | none => .error (.missingKey "total_cost")
        | some cost0 =>
          match record.lookup "user" with
          | none => .error (.missingKey "user")
          | some user_email =>
            match coerceCost cost0 with
            | none => .error .invalidValue
            | some cost =>
              match record.lookup "input_tokens" with
              | none => .error (.missingKey "input_tokens")
              | some it =>
                match record.lookup "output_tokens" with
                | none => .error (.missingKey "output_tokens")
                | some ot =>
                  match pyAdd it ot with
                  | none => .error .genericError
                  | some tok =>
                    .ok { month := monthKey t, model := model, total_cost := cost,
                          user := user_email, total_tokens := tok,
                          image_count := getDefault record "image_count" (.vInt 0),
                          type := getDefault record "type" (.vStr "chat_completion") }
  | some _ => .error .genericError

/-- Run a per-record processor over a list of records, accumulating
the appended rows and the emitted diagnostics in traversal order
(the loop bodies of `process_data`: a failed record contributes one
diagnostic and no row, and the loop continues). -/
def processRecords (f : Rec → Except Diagnostic ProcessedRecord) :
    List Rec → List ProcessedRecord × List Diagnostic
  | [] => ([], [])
  | r :: rs =>
    let acc := processRecords f rs
    match f r with
    | .ok p => (p :: acc.1, acc.2)
    | .error d => (acc.1, d :: acc.2)

/-- The inner loop of the keyed branch for one `(user_email, records)`
dict entry. -/
def processUserRecords (u : String) (rs : List Rec) :
    List ProcessedRecord × List Diagnostic :=
  processRecords (processRecordKeyed u) rs

/-- The loop of the flat branch. -/
def processFlatList (rs : List Rec) : List ProcessedRecord × List Diagnostic :=
  processRecords processRecordFlat rs

/-- The top-level JSON document, after the `isinstance(data, dict)`
dispatch of `process_data`: either a dict mapping user emails to lists
of records, or a flat list of records. -/
inductive InputData where
  | keyed : List (String × List Rec) → InputData
  | flat : List Rec → InputData

/-- `process_data`: normalize either input shape into the list of
processed rows, accumulating diagnostics, in input traversal order. -/
def process_data : InputData → List ProcessedRecord × List Diagnostic
  | .keyed kd =>
    kd.foldr
      (fun p acc =>
        ((processUserRecords p.1 p.2).1 ++ acc.1, (processUserRecords p.1 p.2).2 ++ acc.2))
      ([], [])
  | .flat rs => processFlatList rs

/-- Re-express one keyed-shape record as its flat-shape counterpart:
the same record carrying `user = u` as its own field. -/
def setUser (u : String) (r : Rec) : Rec :=
  ("user", .vStr u) :: r.filter (fun kv => kv.1 != "user")

/-- The flat-shape document expressing the same logical dataset as a
keyed-shape document: each user's records, in order, carrying that
user as their own `user` field. -/
def flattenKeyed (kd : List (String × List Rec)) : List Rec :=
  (kd.map (fun p => p.2.map (setUser p.1))).flatten

/-- A normalized usage record as the aggregation of `plot_data`
consumes it: one row of the processed DataFrame with the
schema-conforming column types of the specification's UsageRecord
(string month/model/user, float cost, integer token and image
counts). -/
structure UsageRecord where
  month : String
  model : String
  total_cost : ℚ
  user : String
  total_tokens : ℤ
  image_count : ℤ
deriving DecidableEq

/-- Line 154: `month_data = data[data["month"] == month]`. -/
def monthData (records : List UsageRecord) (month : String) : List UsageRecord :=
  records.filter (fun r => r.month == month)

/-- The four summary metrics of lines 163-166. -/
structure Summary where
  message_count : ℕ
  total_cost : ℚ
  total_tokens : ℤ
  total_images : ℤ
deriving DecidableEq

/-- Lines 154 and 163-166: filter the records to the selected month
and take the row count and the column sums of `total_cost`,
`total_tokens` and `image_count`. -/
def summarize (records : List UsageRecord) (month : String) : Summary :=
  let md := monthData records month
  { message_count := md.length
    total_cost := (md.map (fun r => r.total_cost)).sum
    total_tokens := (md.map (fun r => r.total_tokens)).sum
    total_images := (md.map (fun r => r.image_count)).sum }

/-- String order, for the ascending group-key order that pandas
`groupby` produces. -/
def strLe (a b : String) : Prop := a ≤ b

instance : DecidableRel strLe := fun a b => inferInstanceAs (Decidable (a ≤ b))

instance : IsTotal String strLe := ⟨fun a b => le_total a b⟩

instance : IsTrans String strLe := ⟨fun _ _ _ h1 h2 => le_trans h1 h2⟩

/-- The distinct `model` values of a record set, in the ascending key
order of `groupby("model")`. -/
def modelsOf (md : List UsageRecord) : List String :=
  List.insertionSort strLe (md.map (fun r => r.model)).dedup

/-- `month_data.groupby("model")["total_tokens"].sum()` (line 184):
one `(model, sum)` pair per distinct model. -/
def modelTokenGroups (md : List UsageRecord) : List (String × ℤ) :=
  (modelsOf md).map
    (fun m => (m, ((md.filter (fun r => r.model == m)).map (fun r => r.total_tokens)).sum))

/-- `month_data.groupby("model")["total_cost"].sum()` (line 201). -/
def modelCostGroups (md : List UsageRecord) : List (String × ℚ) :=
  (modelsOf md).map
    (fun m => (m, ((md.filter (fun r => r.model == m)).map (fun r => r.total_cost)).sum))

/-- Non-increasing order on `(model, token sum)` pairs
(`sort_values(by="total_tokens", ascending=False)`). -/
def tokGe (a b : String × ℤ) : Prop := b.2 ≤ a.2

instance : DecidableRel tokGe := fun a b => inferInstanceAs (Decidable (b.2 ≤ a.2))

instance : IsTotal (String × ℤ) tokGe := ⟨fun a b => le_total b.2 a.2⟩

instance : IsTrans (String × ℤ) tokGe := ⟨fun _ _ _ h1 h2 => le_trans h2 h1⟩

/-- Non-increasing order on `(model, cost sum)` pairs
(`sort_values(by="total_cost", ascending=False)`). -/
def costGe (a b : String × ℚ) : Prop := b.2 ≤ a.2

instance : DecidableRel costGe := fun a b => inferInstanceAs (Decidable (b.2 ≤ a.2))

instance : IsTotal (String × ℚ) costGe := ⟨fun a b => le_total b.2 a.2⟩

instance : IsTrans (String × ℚ) costGe := ⟨fun _ _ _ h1 h2 => le_trans h2 h1⟩

/-- Lines 183-188: group the month's records by model, sum
`total_tokens` per group, sort descending by the sum and keep the
first `limit` rows (`.head(10)` in `plot_data`). -/
def topTokensByModel (records : List UsageRecord) (month : String) (limit : ℕ) :
    List (String × ℤ) :=
  (List.insertionSort tokGe (modelTokenGroups (monthData records month))).take limit

/-- Lines 200-205: as `topTokensByModel`, for `total_cost`. -/
def topCostByModel (records : List UsageRecord) (month : String) (limit : ℕ) :
    List (String × ℚ) :=
  (List.insertionSort costGe (modelCostGroups (monthData records month))).take limit

/-- One row of the per-user table of lines 218-241. -/
structure UserRow where
  user : String
  total_cost : ℚ
  total_tokens : ℤ
  image_count : ℤ
deriving DecidableEq

/-- The distinct `user` values of a record set, in the ascending key
order of `groupby("user")`. -/
def usersOf (md : List UsageRecord) : List String :=
  List.insertionSort strLe (md.map (fun r => r.user)).dedup

/-- Lines 218-222: group the month's records by user and sum
`total_cost`, `total_tokens` and `image_count` per group. -/
def userGroups (md : List UsageRecord) : List UserRow :=
  (usersOf md).map
    (fun u =>
      { user := u
        total_cost := ((md.filter (fun r => r.user == u)).map (fun r => r.total_cost)).sum
        total_tokens := ((md.filter (fun r => r.user == u)).map (fun r => r.total_tokens)).sum
        image_count := ((md.filter (fun r => r.user == u)).map (fun r => r.image_count)).sum })

/-- Non-increasing order on user rows by `total_cost`
(`sort_values(by="total_cost", ascending=False)`, line 223). -/
def rowCostGe (a b : UserRow) : Prop := b.total_cost ≤ a.total_cost

instance : DecidableRel rowCostGe :=
  fun a b => inferInstanceAs (Decidable (b.total_cost ≤ a.total_cost))

instance : IsTotal UserRow rowCostGe := ⟨fun a b => le_total b.total_cost a.total_cost⟩

instance : IsTrans UserRow rowCostGe := ⟨fun _ _ _ h1 h2 => le_trans h2 h1⟩

/-- Lines 218-223: the per-user rows of the selected month, sorted
descending by `total_cost`. -/
def byUserRows (records : List UsageRecord) (month : String) : List UserRow :=
  List.insertionSort rowCostGe (userGroups (monthData records month))

/-- Lines 226-238: the synthetic Total row, whose numeric fields are
the column sums of the per-user rows. -/
def totalRow (rows : List UserRow) : UserRow :=
  { user := "Total"
    total_cost := (rows.map (fun r => r.total_cost)).sum
    total_tokens := (rows.map (fun r => r.total_tokens)).sum
    image_count := (rows.map (fun r => r.image_count)).sum }

/-- Line 241: the per-user table with the Total row concatenated at
the end. -/
def byUser (records : List UsageRecord) (month : String) : List UserRow :=
  byUserRows records month ++ [totalRow (byUserRows records month)]

/-- A record is malformed in the sense of the specification: a
missing required key, an unparseable timestamp, or a non-coercible
(string) cost. -/
def MalformedRec (r : Rec) : Prop :=
  r.lookup "timestamp" = none ∨ r.lookup "model" = none ∨
  r.lookup "total_cost" = none ∨ r.lookup "input_tokens" = none ∨
  r.lookup "output_tokens" = none ∨
  (∃ s, r.lookup "timestamp" = some (.vStr s) ∧ strptime_iso s = none) ∨
  (∃ s, r.lookup "total_cost" = some (.vStr s) ∧ pyFloat s = none)

/-- A fully valid record except that both token counts are strings. -/
def recStrTokens : Rec :=
  [("timestamp", .vStr "2024-11-01T10:00:00.000000"), ("model", .vStr "gpt-4"),
   ("total_cost", .vFloat 1), ("input_tokens", .vStr "100"),
   ("output_tokens", .vStr "50")]

/-- Two records that agree on the lookup of every key other than
`user`. -/
def UserAgnostic (r1 r2 : Rec) : Prop :=
  ∀ k, k ≠ "user" → List.lookup k r1 = List.lookup k r2

/-- A fully valid record. -/
def recGood : Rec :=
  [("timestamp", .vStr "2024-11-01T10:00:00.000000"), ("model", .vStr "gpt-4"),
   ("total_cost", .vFloat 1), ("input_tokens", .vInt 100),
   ("output_tokens", .vInt 50), ("user", .vStr "a@x.com")]

/-- The row `process_data` produces for `recGood`. -/
def procGood : ProcessedRecord :=
  { month := "2024-11", model := .vStr "gpt-4", total_cost := .vFloat 1,
    user := .vStr "a@x.com", total_tokens := .vInt 150, image_count := .vInt 0,
    type := .vStr "chat_completion" }

/-- A record whose timestamp is the nonexistent date February 30. -/
def recBadTs : Rec :=
  [("timestamp", .vStr "2024-02-30T10:00:00.000000"), ("model", .vStr "gpt-4"),
   ("total_cost", .vFloat 1), ("input_tokens", .vInt 1), ("output_tokens", .vInt 2),
   ("user", .vStr "a@x.com")]

/-- A valid record with one integer and one string token count. -/
def recMixedTokens : Rec :=
  [("timestamp", .vStr "2024-11-01T10:00:00.000000"), ("model", .vStr "gpt-4"),
   ("total_cost", .vFloat 1), ("input_tokens", .vInt 100),
   ("output_tokens", .vStr "50")]

/-- A valid record with no `user` field. -/
def recNoUser : Rec :=
  [("timestamp", .vStr "2024-11-01T10:00:00.000000"), ("model", .vStr "gpt-4"),
   ("total_cost", .vFloat 1), ("input_tokens", .vInt 100), ("output_tokens", .vInt 50)]

/-- `recNoUser` with an extra `user` field claiming another user. -/
def recEvilUser : Rec := ("user", PyVal.vStr "evil@x.com") :: recNoUser

/-! ### Lemmas about the normalizer -/

/-- Removing the `user` bindings of a record does not change the
lookup of any other key. -/
theorem lookup_filter_ne (k : String) (hk : k ≠ "user") (r : Rec) :
    List.lookup k (r.filter (fun kv => kv.1 != "user")) = List.lookup k r := by
  induction r with
  | nil => rfl
  | cons a t ih =>
    by_cases ha : a.1 = "user"
    · have h1 : (a.1 != "user") = false := by simp [ha]
      have h2 : (k == a.1) = false := by simp [ha, hk]
      simp [List.filter_cons, h1, List.lookup, h2, ih]
    · have h1 : (a.1 != "user") = true := by simp [ha]
      simp [List.filter_cons, h1, List.lookup, ih]

/-- In the flat-shape counterpart of a keyed record, the `user` field
reads back the enclosing key. -/
theorem lookup_setUser_user (u : String) (r : Rec) :
    List.lookup "user" (setUser u r) = some (.vStr u) := by
  simp [setUser, List.lookup]

/-- In the flat-shape counterpart of a keyed record, every other key
reads as in the original record. -/
theorem lookup_setUser_ne (u k : String) (hk : k ≠ "user") (r : Rec) :
    List.lookup k (setUser u r) = List.lookup k r := by
  have h2 : (k == "user") = false := by simp [hk]
  simp [setUser, List.lookup, h2, lookup_filter_ne k hk r]

/-- Processing a record in the flat shape with `user` set to `u` is
the same as processing it in the keyed shape under the key `u`. -/
theorem processRecordFlat_setUser (u : String) (r : Rec) :
    processRecordFlat (setUser u r) = processRecordKeyed u r := by
  unfold processRecordFlat processRecordKeyed getDefault
  rw [lookup_setUser_user,
    lookup_setUser_ne u "timestamp" (by decide) r,
    lookup_setUser_ne u "model" (by decide) r,
    lookup_setUser_ne u "total_cost" (by decide) r,
    lookup_setUser_ne u "input_tokens" (by decide) r,
    lookup_setUser_ne u "output_tokens" (by decide) r,
    lookup_setUser_ne u "image_count" (by decide) r,
    lookup_setUser_ne u "type" (by decide) r]

/-- `processRecords` distributes over list concatenation. -/
theorem processRecords_append (f : Rec → Except Diagnostic ProcessedRecord)
    (xs ys : List Rec) :
    processRecords f (xs ++ ys) =
      ((processRecords f xs).1 ++ (processRecords f ys).1,
       (processRecords f xs).2 ++ (processRecords f ys).2) := by
  induction xs with
  | nil => simp [processRecords]
  | cons r t ih => cases h : f r <;> simp [processRecords, h, ih]

/-- `processRecords` over a mapped list is `processRecords` of the
composed processor. -/
theorem processRecords_map (f : Rec → Except Diagnostic ProcessedRecord)
    (g : Rec → Rec) (rs : List Rec) :
    processRecords f (rs.map g) = processRecords (fun r => f (g r)) rs := by
  induction rs with
  | nil => rfl
  | cons r t ih => cases h : f (g r) <;> simp [processRecords, h, ih]

/-- `processRecords` only depends on the processor's values on the
list. -/
theorem processRecords_congr {f g : Rec → Except Diagnostic ProcessedRecord}
    (rs : List Rec) (h : ∀ r ∈ rs, f r = g r) :
    processRecords f rs = processRecords g rs := by
  induction rs with
  | nil => rfl
  | cons r t ih =>
    have hr := h r (by simp)
    have iht := ih (fun x hx => h x (by simp [hx]))
    cases hg : g r <;> simp [processRecords, hr, hg, iht]

/-- A record that fails contributes exactly one diagnostic, no row,
and leaves the processing of the surrounding records unchanged. -/
theorem processRecords_splice (f : Rec → Except Diagnostic ProcessedRecord)
    (xs ys : List Rec) (r : Rec) (d : Diagnostic) (h : f r = .error d) :
    processRecords f (xs ++ r :: ys) =
      ((processRecords f xs).1 ++ (processRecords f ys).1,
       (processRecords f xs).2 ++ d :: (processRecords f ys).2) := by
  rw [processRecords_append]
  simp [processRecords, h]

/-- Anatomy of a successful keyed-shape record: every lookup, the
timestamp parse, the cost coercion and the token addition succeeded,
and the row is built from their results. -/
theorem processRecordKeyed_ok (u : String) (r : Rec) (p : ProcessedRecord)
    (hok : processRecordKeyed u r = .ok p) :
    ∃ s t model cost0 cost it ot tok,
      r.lookup "timestamp" = some (.vStr s) ∧ strptime_iso s = some t ∧
      r.lookup "model" = some model ∧
      r.lookup "total_cost" = some cost0 ∧ coerceCost cost0 = some cost ∧
      r.lookup "input_tokens" = some it ∧ r.lookup "output_tokens" = some ot ∧
      pyAdd it ot = some tok ∧
      p = { month := monthKey t, model := model, total_cost := cost, user := .vStr u,
            total_tokens := tok, image_count := getDefault r "image_count" (.vInt 0),
            type := getDefault r "type" (.vStr "chat_completion") } := by
  unfold processRecordKeyed at hok
  repeat' split at hok
  all_goals try exact Except.noConfusion hok
  injection hok with h
  rename_i a1 s h1 a2 t h2 a3 mo h3 a4 c0 h4 a5 c h5 a6 it h6 a7 ot h7 a8 tk h8
  exact ⟨s, t, mo, c0, c, it, ot, tk, h1, h2, h3, h4, h5, h6, h7, h8, h.symm⟩

/-- Anatomy of a successful flat-shape record: as in the keyed shape,
plus a successful `user` lookup that becomes the row's `user`. -/
theorem processRecordFlat_ok (r : Rec) (p : ProcessedRecord)
    (hok : processRecordFlat r = .ok p) :
    ∃ s t model cost0 uv cost it ot tok,
      r.lookup "timestamp" = some (.vStr s) ∧ strptime_iso s = some t ∧
      r.lookup "model" = some model ∧
      r.lookup "total_cost" = some cost0 ∧
      r.lookup "user" = some uv ∧ coerceCost cost0 = some cost ∧
      r.lookup "input_tokens" = some it ∧ r.lookup "output_tokens" = some ot ∧
      pyAdd it ot = some tok ∧
      p = { month := monthKey t, model := model, total_cost := cost, user := uv,
            total_tokens := tok, image_count := getDefault r "image_count" (.vInt 0),
            type := getDefault r "type" (.vStr "chat_completion") } := by
  unfold processRecordFlat at hok
  repeat' split at hok
  all_goals try exact Except.noConfusion hok
  injection hok with h
  rename_i a1 s h1 a2 t h2 a3 mo h3 a4 c0 h4 a5 uv h5 a6 c h6 a7 it h7 a8 ot h8 a9 tk h9
  exact ⟨s, t, mo, c0, uv, c, it, ot, tk, h1, h2, h3, h4, h5, h6, h7, h8, h9, h.symm⟩

/-! ### Claims about the normalizer -/

/-- Claim C1: normalizing a logical dataset expressed in the
keyed-by-user shape and normalizing the same data expressed in the
flat shape (each record carrying its user as its own `user` field)
yield the same UsageRecords — equal even as ordered lists, hence
identical as order-independent sets. -/
theorem keyed_flat_equivalence (kd : List (String × List Rec)) :
    (process_data (.flat (flattenKeyed kd))).1 = (process_data (.keyed kd)).1 := by
  induction kd with
  | nil => rfl
  | cons p t ih =>
    obtain ⟨u, rs⟩ := p
    show (processRecords processRecordFlat (rs.map (setUser u) ++ flattenKeyed t)).1
        = (processUserRecords u rs).1 ++ (process_data (.keyed t)).1
    rw [processRecords_append, processRecords_map,
      processRecords_congr rs (fun r _ => processRecordFlat_setUser u r)]
    exact congrArg (fun x => (processUserRecords u rs).1 ++ x) ih

/-- Claim C2: a record that survives normalization with integer token
counts is emitted with `total_tokens` exactly the sum
`input_tokens + output_tokens`, in both input shapes. -/
theorem total_tokens_exact (u : String) (r : Rec) (a b : ℤ) (p q : ProcessedRecord)
    (ha : r.lookup "input_tokens" = some (.vInt a))
    (hb : r.lookup "output_tokens" = some (.vInt b)) :
    (processRecordKeyed u r = .ok p → p.total_tokens = .vInt (a + b)) ∧
    (processRecordFlat r = .ok q → q.total_tokens = .vInt (a + b)) := by
  constructor
  · intro hok
    obtain ⟨s, t, mo, c0, c, it, ot, tk, h1, h2, h3, h4, h5, h6, h7, h8, hp⟩ :=
      processRecordKeyed_ok u r p hok
    rw [ha] at h6
    rw [hb] at h7
    rw [← Option.some.inj h6, ← Option.some.inj h7] at h8
    have htk : tk = .vInt (a + b) := (Option.some.inj h8).symm
    rw [hp, htk]
  · intro hok
    obtain ⟨s, t, mo, c0, uv, c, it, ot, tk, h1, h2, h3, h4, h5, h6, h7, h8, h9, hp⟩ :=
      processRecordFlat_ok r q hok
    rw [ha] at h7
    rw [hb] at h8
    rw [← Option.some.inj h7, ← Option.some.inj h8] at h9
    have htk : tk = .vInt (a + b) := (Option.some.inj h9).symm
    rw [hp, htk]

/-- A malformed record never processes successfully in the keyed
shape. -/
theorem malformed_keyed_error (u : String) (r : Rec) (h : MalformedRec r) :
    ∃ d, processRecordKeyed u r = .error d := by
  cases hres : processRecordKeyed u r with
  | error d => exact ⟨d, rfl⟩
  | ok p =>
    exfalso
    obtain ⟨s, t, mo, c0, c, it, ot, tk, h1, h2, h3, h4, h5, h6, h7, h8, hp⟩ :=
      processRecordKeyed_ok u r p hres
    rcases h with h | h | h | h | h | ⟨s2, hs2, hbad⟩ | ⟨s2, hs2, hbad⟩
    · rw [h] at h1; exact Option.noConfusion h1
    · rw [h] at h3; exact Option.noConfusion h3
    · rw [h] at h4; exact Option.noConfusion h4
    · rw [h] at h6; exact Option.noConfusion h6
    · rw [h] at h7; exact Option.noConfusion h7
    · rw [h1] at hs2
      rw [PyVal.vStr.inj (Option.some.inj hs2).symm] at hbad
      rw [h2] at hbad
      exact Option.noConfusion hbad
    · rw [h4] at hs2
      rw [Option.some.inj hs2] at h5
      simp [coerceCost, hbad] at h5

/-- A malformed record never processes successfully in the flat
shape. -/
theorem malformed_flat_error (r : Rec) (h : MalformedRec r) :
    ∃ d, processRecordFlat r = .error d := by
  cases hres : processRecordFlat r with
  | error d => exact ⟨d, rfl⟩
  | ok p =>
    exfalso
    obtain ⟨s, t, mo, c0, uv, c, it, ot, tk, h1, h2, h3, h4, h5, h6, h7, h8, h9, hp⟩ :=
      processRecordFlat_ok r p hres
    rcases h with h | h | h | h | h | ⟨s2, hs2, hbad⟩ | ⟨s2, hs2, hbad⟩
    · rw [h] at h1; exact Option.noConfusion h1
    · rw [h] at h3; exact Option.noConfusion h3
    · rw [h] at h4; exact Option.noConfusion h4
    · rw [h] at h7; exact Option.noConfusion h7
    · rw [h] at h8; exact Option.noConfusion h8
    · rw [h1] at hs2
      rw [PyVal.vStr.inj (Option.some.inj hs2).symm] at hbad
      rw [h2] at hbad
      exact Option.noConfusion hbad
    · rw [h4] at hs2
      rw [Option.some.inj hs2] at h6
      simp [coerceCost, hbad] at h6

/-- Claim C3: a malformed record (missing required key, unparseable
timestamp, or non-coercible cost) is excluded from the output
entirely, produces exactly one diagnostic, and leaves the processing
of the surrounding records unchanged — in both input shapes. -/
theorem malformed_excluded (u : String) (r : Rec) (h : MalformedRec r) :
    (∃ d, processRecordKeyed u r = .error d ∧
      ∀ xs ys, processUserRecords u (xs ++ r :: ys) =
        ((processUserRecords u xs).1 ++ (processUserRecords u ys).1,
         (processUserRecords u xs).2 ++ d :: (processUserRecords u ys).2)) ∧
    (∃ d, processRecordFlat r = .error d ∧
      ∀ xs ys, processFlatList (xs ++ r :: ys) =
        ((processFlatList xs).1 ++ (processFlatList ys).1,
         (processFlatList xs).2 ++ d :: (processFlatList ys).2)) := by
  obtain ⟨d1, hd1⟩ := malformed_keyed_error u r h
  obtain ⟨d2, hd2⟩ := malformed_flat_error r h
  exact ⟨⟨d1, hd1, fun xs ys => processRecords_splice _ xs ys r d1 hd1⟩,
         ⟨d2, hd2, fun xs ys => processRecords_splice _ xs ys r d2 hd2⟩⟩

/-- Claim C5: a record whose `timestamp` string does not parse under
the fixed format is dropped with the diagnostic of the `ValueError`
handler (the code's realization of the specification's
`InvalidTimestamp` kind), in both input shapes. -/
theorem invalid_timestamp_dropped (u : String) (r : Rec) (s : String)
    (h1 : r.lookup "timestamp" = some (.vStr s)) (h2 : strptime_iso s = none) :
    processRecordKeyed u r = .error .invalidValue ∧
    processRecordFlat r = .error .invalidValue := by
  constructor
  · simp [processRecordKeyed, h1, h2]
  · simp [processRecordFlat, h1, h2]

/-- Claim C4 (amended): when the prefix of the record processing
succeeds and the token addition itself fails (a Python `TypeError`,
e.g. one integer and one string), the record is dropped with the
catch-all generic diagnostic — not the `ValueError`/`InvalidNumeric`
one; and when both token counts are strings the addition succeeds as
string concatenation and the record is kept, with the concatenated
string as `total_tokens`. -/
theorem token_add_failure_generic (u : String) (r : Rec) (s : String) (t : Timestamp)
    (mo c0 c it ot : PyVal)
    (h1 : r.lookup "timestamp" = some (.vStr s)) (h2 : strptime_iso s = some t)
    (h3 : r.lookup "model" = some mo) (h4 : r.lookup "total_cost" = some c0)
    (h5 : coerceCost c0 = some c)
    (h6 : r.lookup "input_tokens" = some it) (h7 : r.lookup "output_tokens" = some ot) :
    (pyAdd it ot = none → processRecordKeyed u r = .error .genericError) ∧
    (∀ s1 s2, it = .vStr s1 → ot = .vStr s2 →
      processRecordKeyed u r = .ok
        { month := monthKey t, model := mo, total_cost := c, user := .vStr u,
          total_tokens := .vStr (s1 ++ s2),
          image_count := getDefault r "image_count" (.vInt 0),
          type := getDefault r "type" (.vStr "chat_completion") }) := by
  constructor
  · intro hadd
    simp [processRecordKeyed, h1, h2, h3, h4, h5, h6, h7, hadd]
  · intro s1 s2 hi ho
    subst hi
    subst ho
    simp [processRecordKeyed, h1, h2, h3, h4, h5, h6, h7, pyAdd]

/-- Claim C4 counterexample: a record whose `input_tokens` and
`output_tokens` are both (non-numeric) strings is NOT dropped and no
diagnostic is emitted — Python `+` concatenates the strings and the
record is kept with `total_tokens = "10050"`, contradicting the claim
that the computation fails and the record is dropped with an
`InvalidNumeric` diagnostic. -/
theorem c4_counterexample :
    processRecordKeyed "a@x.com" recStrTokens =
      .ok { month := "2024-11", model := .vStr "gpt-4", total_cost := .vFloat 1,
            user := .vStr "a@x.com", total_tokens := .vStr "10050",
            image_count := .vInt 0, type := .vStr "chat_completion" } := by
  decide

/-- Keyed-shape processing never consults a record's own `user`
field. -/
theorem processRecordKeyed_user_agnostic (u : String) {r1 r2 : Rec}
    (h : UserAgnostic r1 r2) :
    processRecordKeyed u r1 = processRecordKeyed u r2 := by
  unfold processRecordKeyed getDefault
  rw [h "timestamp" (by decide), h "model" (by decide), h "total_cost" (by decide),
    h "input_tokens" (by decide), h "output_tokens" (by decide),
    h "image_count" (by decide), h "type" (by decide)]

/-- Keyed-shape processing of record lists is unchanged when the
records' own `user` fields change. -/
theorem processUserRecords_user_agnostic (u : String) {rs1 rs2 : List Rec}
    (h : List.Forall₂ UserAgnostic rs1 rs2) :
    processUserRecords u rs1 = processUserRecords u rs2 := by
  induction h with
  | nil => rfl
  | cons hr ht ih =>
    have ih2 : processRecords (processRecordKeyed u) _ =
        processRecords (processRecordKeyed u) _ := ih
    show processRecords _ (_ :: _) = processRecords _ (_ :: _)
    unfold processRecords
    rw [processRecordKeyed_user_agnostic u hr, ih2]

/-- Every row emitted by keyed-shape processing carries the enclosing
dict key as its `user`. -/
theorem user_from_key (u : String) (rs : List Rec) :
    ∀ p ∈ (processUserRecords u rs).1, p.user = .vStr u := by
  induction rs with
  | nil => intro p hp; simp [processUserRecords, processRecords] at hp
  | cons r t ih =>
    intro p hp
    unfold processUserRecords processRecords at hp
    cases hres : processRecordKeyed u r with
    | error d => rw [hres] at hp; exact ih p hp
    | ok q =>
      rw [hres] at hp
      rcases List.mem_cons.mp hp with hq | hm
      · obtain ⟨s, t2, mo, c0, c, it, ot, tk, h1, h2, h3, h4, h5, h6, h7, h8, hq2⟩ :=
          processRecordKeyed_ok u r q hres
        rw [hq, hq2]
      · exact ih p hm

/-- Claim C10: in the keyed-by-user shape the `user` of every emitted
row is the enclosing dict key, and a record's own `user` field is
ignored — two keyed inputs that differ only in the records' own
`user` fields normalize to identical output. -/
theorem keyed_ignores_record_user (u : String) (rs1 rs2 : List Rec)
    (h : List.Forall₂ UserAgnostic rs1 rs2) :
    (∀ p ∈ (processUserRecords u rs1).1, p.user = .vStr u) ∧
    processUserRecords u rs1 = processUserRecords u rs2 :=
  ⟨user_from_key u rs1, processUserRecords_user_agnostic u h⟩

/-! ### Witnesses for the normalizer claims -/

/-- Witness for claim C2 at the specification's scenario record. -/
theorem total_tokens_exact_witness :
    (List.lookup "input_tokens" recGood = some (.vInt 100)) ∧
    (List.lookup "output_tokens" recGood = some (.vInt 50)) ∧
    processRecordKeyed "a@x.com" recGood = .ok procGood ∧
    procGood.total_tokens = .vInt (100 + 50) :=
  ⟨by decide, by decide, by decide,
   (total_tokens_exact "a@x.com" recGood 100 50 procGood procGood
      (by decide) (by decide)).1 (by decide)⟩

/-- Witness for claim C3 at the empty record, malformed because it
lacks `timestamp`. -/
theorem malformed_excluded_witness :
    MalformedRec [] ∧
    ((∃ d, processRecordKeyed "a@x.com" [] = .error d ∧
      ∀ xs ys, processUserRecords "a@x.com" (xs ++ [] :: ys) =
        ((processUserRecords "a@x.com" xs).1 ++ (processUserRecords "a@x.com" ys).1,
         (processUserRecords "a@x.com" xs).2 ++ d :: (processUserRecords "a@x.com" ys).2)) ∧
    (∃ d, processRecordFlat [] = .error d ∧
      ∀ xs ys, processFlatList (xs ++ [] :: ys) =
        ((processFlatList xs).1 ++ (processFlatList ys).1,
         (processFlatList xs).2 ++ d :: (processFlatList ys).2))) :=
  ⟨Or.inl rfl, malformed_excluded "a@x.com" [] (Or.inl rfl)⟩

/-- Witness for claim C5 at a record whose timestamp does not parse
(February 30). -/
theorem invalid_timestamp_dropped_witness :
    (List.lookup "timestamp" recBadTs = some (.vStr "2024-02-30T10:00:00.000000")) ∧
    strptime_iso "2024-02-30T10:00:00.000000" = none ∧
    (processRecordKeyed "a@x.com" recBadTs = .error .invalidValue ∧
     processRecordFlat recBadTs = .error .invalidValue) :=
  ⟨by decide, by decide,
   invalid_timestamp_dropped "a@x.com" recBadTs "2024-02-30T10:00:00.000000"
     (by decide) (by decide)⟩

/-- Witness for the amended claim C4 at a record with one integer and
one string token count: the addition is a `TypeError` and the record
is dropped with the generic catch-all diagnostic. -/
theorem token_add_failure_generic_witness :
    (List.lookup "timestamp" recMixedTokens = some (.vStr "2024-11-01T10:00:00.000000")) ∧
    strptime_iso "2024-11-01T10:00:00.000000" = some ⟨2024, 11, 1, 10, 0, 0, 0⟩ ∧
    (List.lookup "model" recMixedTokens = some (.vStr "gpt-4")) ∧
    (List.lookup "total_cost" recMixedTokens = some (.vFloat 1)) ∧
    coerceCost (.vFloat 1) = some (.vFloat 1) ∧
    (List.lookup "input_tokens" recMixedTokens = some (.vInt 100)) ∧
    (List.lookup "output_tokens" recMixedTokens = some (.vStr "50")) ∧
    pyAdd (.vInt 100) (.vStr "50") = none ∧
    processRecordKeyed "a@x.com" recMixedTokens = .error .genericError :=
  ⟨by decide, by decide, by decide, by decide, by decide, by decide, by decide, by decide,
   (token_add_failure_generic "a@x.com" recMixedTokens "2024-11-01T10:00:00.000000"
     ⟨2024, 11, 1, 10, 0, 0, 0⟩ (.vStr "gpt-4") (.vFloat 1) (.vFloat 1)
     (.vInt 100) (.vStr "50") (by decide) (by decide) (by decide) (by decide)
     (by decide) (by decide) (by decide)).1 (by decide)⟩

/-- Witness for claim C10: one keyed input without record-level `user`
fields and one with a contradictory `user` field normalize the same,
and the emitted row's user is the dict key. -/
theorem keyed_ignores_record_user_witness :
    List.Forall₂ UserAgnostic [recNoUser] [recEvilUser] ∧
    ((∀ p ∈ (processUserRecords "a@x.com" [recNoUser]).1, p.user = .vStr "a@x.com") ∧
     processUserRecords "a@x.com" [recNoUser] =
       processUserRecords "a@x.com" [recEvilUser]) := by
  have hFA : List.Forall₂ UserAgnostic [recNoUser] [recEvilUser] := by
    refine List.Forall₂.cons ?_ List.Forall₂.nil
    intro k hk
    have hne : (k == "user") = false := by simpa using hk
    simp [recEvilUser, List.lookup, hne]
  exact ⟨hFA, keyed_ignores_record_user "a@x.com" [recNoUser] [recEvilUser] hFA⟩

/-! ### Lemmas about the aggregation -/

/-- Splitting a sum over a list by a Boolean predicate. -/
theorem sum_map_filter_not {α M : Type*} [AddCommMonoid M] (p : α → Bool)
    (val : α → M) (l : List α) :
    ((l.filter p).map val).sum + ((l.filter (fun x => !(p x))).map val).sum
      = (l.map val).sum := by
  induction l with
  | nil => simp
  | cons a t ih =>
    by_cases h : p a <;>
      simp [List.filter_cons, h, ← ih, add_assoc, add_left_comm]

/-- Summing per-group sums over a duplicate-free list of keys covering
a list equals the sum over the whole list. -/
theorem sum_over_groups {α M : Type*} [AddCommMonoid M] (key : α → String)
    (val : α → M) :
    ∀ (ks : List String) (l : List α), ks.Nodup → (∀ x ∈ l, key x ∈ ks) →
      (ks.map (fun k => ((l.filter (fun x => key x == k)).map val).sum)).sum
        = (l.map val).sum
  | [], l, _, hall => by
    cases l with
    | nil => simp
    | cons a t => exact absurd (hall a (by simp)) (by simp)
  | k :: ks, l, hnd, hall => by
    have hk : k ∉ ks := (List.nodup_cons.mp hnd).1
    have hnd2 : ks.Nodup := (List.nodup_cons.mp hnd).2
    have hfilt : ∀ k2 ∈ ks,
        l.filter (fun x => key x == k2)
          = (l.filter (fun x => !(key x == k))).filter (fun x => key x == k2) := by
      intro k2 hk2
      rw [List.filter_filter]
      refine List.filter_congr ?_
      intro x _
      cases hxk : key x == k2 with
      | false => simp [hxk]
      | true =>
        have hkey : key x = k2 := by simpa using hxk
        have hne : (key x == k) = false := by
          rw [beq_eq_false_iff_ne, hkey]
          intro hkk
          exact hk (hkk ▸ hk2)
        simp [hxk, hne]
    have hall2 : ∀ x ∈ l.filter (fun x => !(key x == k)), key x ∈ ks := by
      intro x hx
      obtain ⟨hxl, hxk⟩ := List.mem_filter.mp hx
      have hxne : key x ≠ k := by simpa using hxk
      rcases List.mem_cons.mp (hall x hxl) with h | h
      · exact absurd h hxne
      · exact h
    calc ((k :: ks).map
            (fun k2 => ((l.filter (fun x => key x == k2)).map val).sum)).sum
        = ((l.filter (fun x => key x == k)).map val).sum +
          (ks.map (fun k2 => ((l.filter (fun x => key x == k2)).map val).sum)).sum := by
          simp
      _ = ((l.filter (fun x => key x == k)).map val).sum +
          (ks.map (fun k2 => (((l.filter (fun x => !(key x == k))).filter
            (fun x => key x == k2)).map val).sum)).sum := by
          have hmap : ks.map
                (fun k2 => ((l.filter (fun x => key x == k2)).map val).sum)
              = ks.map (fun k2 => (((l.filter (fun x => !(key x == k))).filter
                  (fun x => key x == k2)).map val).sum) :=
            List.map_congr_left (fun k2 hk2 => by rw [hfilt k2 hk2])
          rw [hmap]
      _ = ((l.filter (fun x => key x == k)).map val).sum +
          ((l.filter (fun x => !(key x == k))).map val).sum := by
          rw [sum_over_groups key val ks (l.filter (fun x => !(key x == k))) hnd2 hall2]
      _ = (l.map val).sum := sum_map_filter_not _ val l

/-- The model keys cover the month's records and are duplicate-free. -/
theorem modelsOf_cover (md : List UsageRecord) :
    (modelsOf md).Nodup ∧ ∀ r ∈ md, r.model ∈ modelsOf md := by
  constructor
  · exact ((List.perm_insertionSort strLe _).symm).nodup (List.nodup_dedup _)
  · intro r hr
    rw [modelsOf, List.mem_insertionSort, List.mem_dedup]
    exact List.mem_map_of_mem (fun r => r.model) hr

/-- The user keys cover the month's records and are duplicate-free. -/
theorem usersOf_cover (md : List UsageRecord) :
    (usersOf md).Nodup ∧ ∀ r ∈ md, r.user ∈ usersOf md := by
  constructor
  · exact ((List.perm_insertionSort strLe _).symm).nodup (List.nodup_dedup _)
  · intro r hr
    rw [usersOf, List.mem_insertionSort, List.mem_dedup]
    exact List.mem_map_of_mem (fun r => r.user) hr

/-! ### Claims about the aggregation -/

/-- Claim C6: `summarize` filters the records to the selected period
(it depends only on the matching records) and, when zero records
match, returns the zero-valued Summary rather than failing. -/
theorem summarize_total (records : List UsageRecord) (month : String) :
    summarize records month = summarize (monthData records month) month ∧
    ((∀ r ∈ records, r.month ≠ month) →
      summarize records month =
        { message_count := 0, total_cost := 0, total_tokens := 0, total_images := 0 }) := by
  constructor
  · simp [summarize, monthData, List.filter_filter]
  · intro h
    have hnil : monthData records month = [] := by
      rw [monthData, List.filter_eq_nil_iff]
      intro r hr
      simpa using h r hr
    simp [summarize, hnil]

/-- Witness for claim C6 at a one-record set and a period matching no
record. -/
theorem summarize_total_witness :
    (∀ r ∈ [({ month := "2024-11", model := "gpt-4", total_cost := 1,
               user := "a@x.com", total_tokens := 150, image_count := 0 } :
              UsageRecord)], r.month ≠ "2024-12") ∧
    summarize [{ month := "2024-11", model := "gpt-4", total_cost := 1,
                 user := "a@x.com", total_tokens := 150, image_count := 0 }] "2024-12" =
      { message_count := 0, total_cost := 0, total_tokens := 0, total_images := 0 } :=
  ⟨by decide,
   (summarize_total [{ month := "2024-11", model := "gpt-4", total_cost := 1,
                       user := "a@x.com", total_tokens := 150, image_count := 0 }]
      "2024-12").2 (by decide)⟩

/-- Claim C7: both `topByModel` views return at most `limit` rows,
sorted non-increasing by the requested metric, and every returned row
carries the per-model total of that metric over the period's
records. -/
theorem topByModel_bounded_sorted (records : List UsageRecord) (month : String)
    (limit : ℕ) :
    ((topTokensByModel records month limit).length ≤ limit ∧
     List.Sorted tokGe (topTokensByModel records month limit) ∧
     ∀ p ∈ topTokensByModel records month limit,
       p.2 = (((monthData records month).filter (fun r => r.model == p.1)).map
         (fun r => r.total_tokens)).sum) ∧
    ((topCostByModel records month limit).length ≤ limit ∧
     List.Sorted costGe (topCostByModel records month limit) ∧
     ∀ p ∈ topCostByModel records month limit,
       p.2 = (((monthData records month).filter (fun r => r.model == p.1)).map
         (fun r => r.total_cost)).sum) := by
  constructor
  · refine ⟨List.length_take_le _ _, ?_, ?_⟩
    · exact List.Pairwise.sublist (List.take_sublist _ _)
        (List.sorted_insertionSort tokGe _)
    · intro p hp
      have hp2 : p ∈ List.insertionSort tokGe
          (modelTokenGroups (monthData records month)) :=
        List.take_subset _ _ hp
      rw [List.mem_insertionSort] at hp2
      obtain ⟨m, _, hpe⟩ := List.mem_map.mp hp2
      subst hpe
      rfl
  · refine ⟨List.length_take_le _ _, ?_, ?_⟩
    · exact List.Pairwise.sublist (List.take_sublist _ _)
        (List.sorted_insertionSort costGe _)
    · intro p hp
      have hp2 : p ∈ List.insertionSort costGe
          (modelCostGroups (monthData records month)) :=
        List.take_subset _ _ hp
      rw [List.mem_insertionSort] at hp2
      obtain ⟨m, _, hpe⟩ := List.mem_map.mp hp2
      subst hpe
      rfl

/-- Claim C9: the summary totals of a period equal the sums, across
all models, of the per-model group sums underlying `topByModel`
(before truncation to `limit`): token and cost conservation. -/
theorem group_sum_conservation (records : List UsageRecord) (month : String) :
    ((modelTokenGroups (monthData records month)).map (fun p => p.2)).sum
        = (summarize records month).total_tokens ∧
    ((modelCostGroups (monthData records month)).map (fun p => p.2)).sum
        = (summarize records month).total_cost := by
  have hcov := modelsOf_cover (monthData records month)
  constructor
  · rw [modelTokenGroups, List.map_map]
    exact sum_over_groups (fun (r : UsageRecord) => r.model) (fun r => r.total_tokens) _ _
      hcov.1 hcov.2
  · rw [modelCostGroups, List.map_map]
    exact sum_over_groups (fun (r : UsageRecord) => r.model) (fun r => r.total_cost) _ _
      hcov.1 hcov.2

/-- Claim C8: `byUser` is the per-user rows sorted descending by
`total_cost` followed by the synthetic Total row, always last, whose
numeric fields are the column sums of the preceding rows; in
particular its `total_cost` (and likewise the token and image
columns) equals the corresponding `summarize` total. -/
theorem byUser_total_row (records : List UsageRecord) (month : String) :
    byUser records month
        = byUserRows records month ++ [totalRow (byUserRows records month)] ∧
    List.Sorted rowCostGe (byUserRows records month) ∧
    (totalRow (byUserRows records month)).total_cost
        = (summarize records month).total_cost ∧
    (totalRow (byUserRows records month)).total_tokens
        = (summarize records month).total_tokens ∧
    (totalRow (byUserRows records month)).image_count
        = (summarize records month).total_images := by
  have hcov := usersOf_cover (monthData records month)
  have hperm : (byUserRows records month).Perm
      (userGroups (monthData records month)) :=
    List.perm_insertionSort rowCostGe _
  refine ⟨rfl, List.sorted_insertionSort rowCostGe _, ?_, ?_, ?_⟩
  · show ((byUserRows records month).map (fun (r : UserRow) => r.total_cost)).sum = _
    rw [(hperm.map (fun (r : UserRow) => r.total_cost)).sum_eq, userGroups, List.map_map]
    exact sum_over_groups (fun (r : UsageRecord) => r.user) (fun r => r.total_cost) _ _
      hcov.1 hcov.2
  · show ((byUserRows records month).map (fun (r : UserRow) => r.total_tokens)).sum = _
    rw [(hperm.map (fun (r : UserRow) => r.total_tokens)).sum_eq, userGroups, List.map_map]
    exact sum_over_groups (fun (r : UsageRecord) => r.user) (fun r => r.total_tokens) _ _
      hcov.1 hcov.2
  · show ((byUserRows records month).map (fun (r : UserRow) => r.image_count)).sum = _
    rw [(hperm.map (fun (r : UserRow) => r.image_count)).sum_eq, userGroups, List.map_map]
    exact sum_over_groups (fun (r : UsageRecord) => r.user) (fun r => r.image_count) _ _
      hcov.1 hcov.2

end CostTracker
